import Mathlib

/-!
Verification of the whisper server (`server.cpp`) against its
natural-language specification.

The definitions below are a shallow embedding of the server code:
pure helper functions become Lean functions, the stateful request
handlers become explicit state-passing functions, and the opaque
inference engine (`whisper_full` / `whisper_full_parallel`) becomes an
oracle parameter of type `Engine`.  Machine integers are modelled as
`Int`/`Nat`; C++ `float` arithmetic is modelled over `ℚ` (the claims
under scrutiny concern exact arithmetic identities, lengths and control
flow, not rounding).
-/

namespace WhisperServer

/-- Constant `WHISPER_SAMPLE_RATE` from server.cpp line 43. -/
def WHISPER_SAMPLE_RATE : Nat := 16000

/-! ## Audio decoding (server.cpp `read_wav_content`, lines 110-135) -/

/-- Little-endian signed 16-bit decoding of two bytes, as done by
`*reinterpret_cast<const int16_t*>(data + i * 2)` on a little-endian
machine.  Bytes are `Nat`s; values outside 0..255 are reduced mod 256. -/
def decode_i16_le (lo hi : Nat) : Int :=
  if lo % 256 + 256 * (hi % 256) < 32768 then ((lo % 256 + 256 * (hi % 256) : Nat) : Int)
  else ((lo % 256 + 256 * (hi % 256) : Nat) : Int) - 65536

/-- The sample-conversion loop of `read_wav_content`: interpret a byte
list as consecutive little-endian int16 samples and normalize each by
`/ 32768.0f`.  A trailing odd byte is ignored (`data_size / 2`). -/
def decodePCM16 (data : List Nat) : List ℚ :=
  (List.range (data.length / 2)).map fun i =>
    (decode_i16_le (data.getD (2 * i) 0) (data.getD (2 * i + 1) 0) : ℚ) / 32768

/-- Function `read_wav_content` (server.cpp lines 110-135): fail when fewer than
44 bytes, otherwise skip the 44-byte header unconditionally and decode
the rest as 16-bit PCM; when `stereo` is requested and the sample count
is even, also de-interleave into two channels. -/
def read_wav_content (content : List Nat) (stereo : Bool) :
    Option (List ℚ × List (List ℚ)) :=
  if content.length < 44 then none
  else
    let pcmf32 := decodePCM16 (content.drop 44)
    let pcmf32s :=
      if stereo = true ∧ pcmf32.length % 2 = 0 then
        [(List.range (pcmf32.length / 2)).map (fun i => pcmf32.getD (2 * i) 0),
         (List.range (pcmf32.length / 2)).map (fun i => pcmf32.getD (2 * i + 1) 0)]
      else []
    some (pcmf32, pcmf32s)

lemma decode_i16_le_lower (lo hi : Nat) : -32768 ≤ decode_i16_le lo hi := by
  unfold decode_i16_le
  split
  · omega
  · have h : lo % 256 + 256 * (hi % 256) ≤ 65535 := by
      have h1 : lo % 256 ≤ 255 := Nat.le_of_lt_succ (Nat.mod_lt _ (by norm_num))
      have h2 : hi % 256 ≤ 255 := Nat.le_of_lt_succ (Nat.mod_lt _ (by norm_num))
      omega
    omega

lemma decode_i16_le_upper (lo hi : Nat) : decode_i16_le lo hi ≤ 32767 := by
  unfold decode_i16_le
  split
  · omega
  · have h1 : lo % 256 ≤ 255 := Nat.le_of_lt_succ (Nat.mod_lt _ (by norm_num))
    have h2 : hi % 256 ≤ 255 := Nat.le_of_lt_succ (Nat.mod_lt _ (by norm_num))
    omega

lemma decodePCM16_length (data : List Nat) :
    (decodePCM16 data).length = data.length / 2 := by
  simp [decodePCM16]

lemma decodePCM16_mem_range (data : List Nat) :
    ∀ s ∈ decodePCM16 data, -1 ≤ s ∧ s < 1 := by
  intro s hs
  simp only [decodePCM16, List.mem_map, List.mem_range] at hs
  obtain ⟨i, _, rfl⟩ := hs
  constructor
  · rw [le_div_iff₀ (by norm_num : (0:ℚ) < 32768)]
    have := decode_i16_le_lower (data.getD (2 * i) 0) (data.getD (2 * i + 1) 0)
    have : (-32768 : ℚ) ≤ (decode_i16_le (data.getD (2 * i) 0) (data.getD (2 * i + 1) 0) : ℚ) := by
      exact_mod_cast this
    linarith
  · rw [div_lt_one (by norm_num : (0:ℚ) < 32768)]
    have := decode_i16_le_upper (data.getD (2 * i) 0) (data.getD (2 * i + 1) 0)
    have h : (decode_i16_le (data.getD (2 * i) 0) (data.getD (2 * i + 1) 0) : ℚ) ≤ 32767 := by
      exact_mod_cast this
    linarith

lemma decodePCM16_getD (data : List Nat) (i : Nat) (h : i < data.length / 2) :
    (decodePCM16 data).getD i 0 =
      (decode_i16_le (data.getD (2 * i) 0) (data.getD (2 * i + 1) 0) : ℚ) / 32768 := by
  unfold decodePCM16
  rw [List.getD_eq_getElem?_getD, List.getElem?_map, List.getElem?_range h]
  simp

/-- C4: the in-memory WAV decoder fails on inputs shorter than 44
bytes; on an input of `N ≥ 44` bytes it succeeds and yields exactly
`(N - 44) / 2` mono samples (zero samples for a 44-byte blob), each
equal to the little-endian signed 16-bit value of the corresponding
byte pair divided by 32768, hence lying in `[-1, 1)`. -/
theorem wav_decoder_spec (content : List Nat) (stereo : Bool) :
    (content.length < 44 → read_wav_content content stereo = none) ∧
    (44 ≤ content.length →
      ∃ out, read_wav_content content stereo = some out ∧
        out.1.length = (content.length - 44) / 2 ∧
        (∀ s ∈ out.1, -1 ≤ s ∧ s < 1) ∧
        (∀ i, i < (content.length - 44) / 2 →
          out.1.getD i 0 =
            (decode_i16_le (content.getD (44 + 2 * i) 0)
                           (content.getD (44 + 2 * i + 1) 0) : ℚ) / 32768)) := by
  constructor
  · intro h
    simp [read_wav_content, h]
  · intro h
    unfold read_wav_content
    rw [if_neg (by omega)]
    refine ⟨_, rfl, ?_, ?_, ?_⟩
    · simp [decodePCM16_length]
    · exact decodePCM16_mem_range _
    · intro i hi
      have hlen : (content.drop 44).length = content.length - 44 := by
        simp
      have hi2 : i < (content.drop 44).length / 2 := by omega
      rw [decodePCM16_getD _ _ hi2]
      have h1 : (content.drop 44).getD (2 * i) 0 = content.getD (44 + 2 * i) 0 := by
        rw [List.getD_eq_getElem?_getD, List.getD_eq_getElem?_getD,
            List.getElem?_drop]
      have h2 : (content.drop 44).getD (2 * i + 1) 0 = content.getD (44 + 2 * i + 1) 0 := by
        rw [List.getD_eq_getElem?_getD, List.getD_eq_getElem?_getD,
            List.getElem?_drop, show 44 + (2 * i + 1) = 44 + 2 * i + 1 from by omega]
      rw [h1, h2]

/-- Witness for C4 at concrete inputs: a 43-byte blob fails, a 46-byte
blob succeeds with exactly one sample. -/
theorem wav_decoder_spec_witness :
    read_wav_content (List.replicate 43 0) false = none ∧
    ∃ out, read_wav_content (List.replicate 46 0) false = some out ∧
      out.1.length = 1 := by
  constructor
  · exact (wav_decoder_spec (List.replicate 43 0) false).1 (by simp)
  · obtain ⟨out, h1, h2, -, -⟩ :=
      (wav_decoder_spec (List.replicate 46 0) false).2 (by simp)
    exact ⟨out, h1, by simpa using h2⟩

/-! ## Engine oracle and segment data

The inference engine (`whisper_full` / `whisper_full_parallel`) is a
black-box dependency; we model one invocation as an oracle returning
`none` for a non-zero (failure) return code and `some segments` for
success.  The `Handle` records which loaded model context the handler
passed to the engine: `ctx` (cold) or `hot_ctx` / `ws_whisper_ctx`
(hot). -/

/-- The two engine handles of the dispatch fabric: `ctx` (cold path)
and `hot_ctx` (hot path; `ws_whisper_ctx` aliases `hot_ctx`,
server.cpp line 1148). -/
inductive Handle where
  | cold
  | hot
deriving DecidableEq

/-- The two engine serialization mutexes declared in `main`
(server.cpp lines 1019-1020). -/
inductive MutexId where
  | coldMutex
  | hotMutex
deriving DecidableEq

/-- Per-token engine output (whisper_token_data fields used by the
server). -/
structure TokenData where
  id : Int
  text : String
  p : ℚ
  plog : ℚ
  t0 : Int
  t1 : Int
  t_dtw : Int
deriving DecidableEq

/-- Per-segment engine output, as read back through
`whisper_full_get_segment_*`. -/
structure SegmentData where
  text : String
  t0 : Int
  t1 : Int
  tokens : List TokenData
  no_speech_prob : ℚ
deriving DecidableEq

/-- One engine invocation: `none` models a non-zero return of
`whisper_full` / `whisper_full_parallel`, `some segs` a zero return
with the given readable segments. -/
def Engine : Type := Handle → List ℚ → Option (List SegmentData)

/-! ## WebSocket streaming core
(`WhisperWebSocketHandler`, server.cpp lines 809-1011) -/

/-- Constant `min_samples` of `processAudioData` (line 905) and
`process_samples` of `processAudioChunk` (line 940): 1.1 seconds. -/
def ws_min_samples : Nat := WHISPER_SAMPLE_RATE + WHISPER_SAMPLE_RATE / 10

/-- Constant `window_samples` of `processAudioChunk` (line 939): 2 seconds. -/
def ws_window_samples : Nat := WHISPER_SAMPLE_RATE * 2

/-- The characters stripped from the transcription by the two `erase`
calls in `processAudioChunk` (lines 980-981): `" \t\n\r"`. -/
def isStripChar (c : Char) : Bool :=
  c = ' ' ∨ c = '\t' ∨ c = '\n' ∨ c = '\r'

/-- Strip leading and trailing `" \t\n\r"` characters, as
`erase(0, find_first_not_of(...))` followed by
`erase(find_last_not_of(...) + 1)`. -/
def stripWS (s : String) : String :=
  ⟨((s.data.dropWhile isStripChar).reverse.dropWhile isStripChar).reverse⟩

/-- The JSON text frame built by `sendTranscriptionResult`
(server.cpp lines 996-1010). -/
structure WSMessage where
  text : String
  timestamp : Int
  is_streaming : Bool
deriving DecidableEq

/-- Result of one `processAudioChunk` / `processAudioData` step:
the session ring afterwards, the frame sent (if any), and the engine
handles invoked. -/
structure WSStep where
  buffer : List ℚ
  sent : Option WSMessage
  calls : List Handle
deriving DecidableEq

/-- Method `WhisperWebSocketHandler::processAudioChunk` (server.cpp lines
932-994), with the engine as an oracle and the wall clock as the
parameter `now` (epoch milliseconds).  The inference always runs on
`ws_whisper_ctx`, which `main` set to the hot context; no engine mutex
is taken here.  The transcription is the concatenation of the non-empty
segment texts; it is stripped and sent only if non-empty; the sliding
window prune at the end runs unconditionally. -/
def processAudioChunk (engine : Engine) (now : Int) (buffer : List ℚ) : WSStep :=
  if buffer.length < ws_min_samples then
    { buffer := buffer, sent := none, calls := [] }
  else
    let audio_chunk := buffer.drop (buffer.length - ws_min_samples)
    let sent : Option WSMessage :=
      match engine Handle.hot audio_chunk with
      | none => none
      | some segs =>
        let transcription := String.join ((segs.map SegmentData.text).filter (fun t => t ≠ ""))
        if transcription = "" then none
        else
          let stripped := stripWS transcription
          if stripped = "" then none
          else some { text := stripped, timestamp := now, is_streaming := true }
    let buffer' :=
      if ws_window_samples < buffer.length then
        buffer.drop (buffer.length - ws_window_samples)
      else buffer
    { buffer := buffer', sent := sent, calls := [Handle.hot] }

/-- Method `WhisperWebSocketHandler::processAudioData` (server.cpp lines
870-909): append `pl_len / 2` little-endian int16 samples from the
binary payload to the session ring, then run `processAudioChunk` once
the ring holds at least 1.1 s. -/
def processAudioData (engine : Engine) (now : Int) (buffer : List ℚ)
    (payload : List Nat) : WSStep :=
  let buffer1 := buffer ++ decodePCM16 payload
  if ws_min_samples ≤ buffer1.length then processAudioChunk engine now buffer1
  else { buffer := buffer1, sent := none, calls := [] }

/-! ## Theorems about the WebSocket streaming core -/

lemma stripWS_empty : stripWS "" = "" := rfl

lemma join_filter_ne_empty (l : List String) :
    String.join (l.filter (fun t => t ≠ "")) = String.join l := by
  rw [String.join_eq, String.join_eq]
  have h : ((l.filter (fun t => t ≠ "")).map String.data).flatten =
      (l.map String.data).flatten := by
    induction l with
    | nil => rfl
    | cons a t ih =>
      by_cases ha : a = ""
      · subst ha
        simpa [List.filter_cons] using ih
      · simp only [ne_eq, decide_not] at ih ⊢
        simp [List.filter_cons, ha, ih]
  rw [h]

/-- A concrete always-failing engine: every `whisper_full` call returns
a non-zero status. -/
def engineFail : Engine := fun _ _ => none

/-- Shared characterization of the ring after `processAudioChunk`: the
sliding-window prune at server.cpp lines 989-993 runs after the
success-guarded emission block and does not depend on the engine
outcome. -/
lemma processAudioChunk_buffer_eq (engine : Engine) (now : Int) (buffer : List ℚ) :
    (processAudioChunk engine now buffer).buffer =
      if buffer.length < ws_min_samples then buffer
      else if ws_window_samples < buffer.length then
        buffer.drop (buffer.length - ws_window_samples)
      else buffer := by
  unfold processAudioChunk
  split <;> simp

/-- C2 (amended): after every triggered WebSocket inference invocation
— successful or failed — the session ring is trimmed to the trailing
2 s (32000 samples) whenever it exceeds that bound, and is otherwise
left unchanged; the pruning does not depend on the engine outcome. -/
theorem ws_ring_prune_amended (engine : Engine) (now : Int) (buffer : List ℚ) :
    (processAudioChunk engine now buffer).buffer =
      if buffer.length < ws_min_samples then buffer
      else if ws_window_samples < buffer.length then
        buffer.drop (buffer.length - ws_window_samples)
      else buffer :=
  processAudioChunk_buffer_eq engine now buffer

/-- C2 (counterexample): with a ring of 32001 samples and a failing
inference call, the ring is nevertheless pruned to 32000 samples — it
is not \x22left exactly as it was before the invocation\x22. -/
theorem ws_ring_prune_counterexample :
    (processAudioChunk engineFail 0 (List.replicate 32001 (0:ℚ))).buffer =
        List.replicate 32000 (0:ℚ) ∧
    List.replicate 32000 (0:ℚ) ≠ List.replicate 32001 (0:ℚ) := by
  constructor
  · have hb : (List.replicate 32001 (0:ℚ)).length = 32001 := List.length_replicate _ _
    rw [processAudioChunk_buffer_eq, hb,
        if_neg (by simp [ws_min_samples, WHISPER_SAMPLE_RATE]),
        if_pos (by simp [ws_window_samples, WHISPER_SAMPLE_RATE]),
        List.drop_replicate]
    norm_num [ws_window_samples, WHISPER_SAMPLE_RATE]
  · intro h
    have hlen := congrArg List.length h
    rw [List.length_replicate, List.length_replicate] at hlen
    omega

/-- C3: for every successful WebSocket inference invocation, letting
`T` be the concatenation of the segment texts stripped of leading and
trailing whitespace: if `T` is non-empty exactly one frame
`{text := T, timestamp := now, is_streaming := true}` is sent, and if
`T` is empty nothing is sent. -/
theorem ws_emission_spec (engine : Engine) (now : Int) (buffer : List ℚ)
    (segs : List SegmentData)
    (hlen : ws_min_samples ≤ buffer.length)
    (heng : engine Handle.hot (buffer.drop (buffer.length - ws_min_samples)) = some segs) :
    (processAudioChunk engine now buffer).sent =
      if stripWS (String.join (segs.map SegmentData.text)) = "" then none
      else some { text := stripWS (String.join (segs.map SegmentData.text)),
                  timestamp := now, is_streaming := true } := by
  unfold processAudioChunk
  rw [if_neg (by omega)]
  simp only [heng, join_filter_ne_empty]
  by_cases hJ : String.join (segs.map SegmentData.text) = ""
  · simp [hJ, stripWS_empty]
  · simp [hJ]

/-- A concrete engine producing one segment whose text carries
surrounding whitespace. -/
def engineHello : Engine := fun _ _ =>
  some [{ text := " hello ", t0 := 0, t1 := 110, tokens := [], no_speech_prob := 0 }]

/-- Witness for C3: a full 1.1 s ring and an engine emitting
`" hello "` produce exactly one frame with stripped text `"hello"`. -/
theorem ws_emission_spec_witness :
    (processAudioChunk engineHello 5 (List.replicate 17600 (0:ℚ))).sent =
      some { text := "hello", timestamp := 5, is_streaming := true } := by
  have h := ws_emission_spec engineHello 5 (List.replicate 17600 (0:ℚ))
    [{ text := " hello ", t0 := 0, t1 := 110, tokens := [], no_speech_prob := 0 }]
    (by rw [List.length_replicate]; norm_num [ws_min_samples, WHISPER_SAMPLE_RATE]) rfl
  rw [h]
  rfl

/-- C7 (counterexample): a binary frame whose byte length is odd (3
bytes here) is not skipped: the first two bytes are decoded and one
sample is appended to the ring, so the ring does change. -/
theorem ws_odd_frame_counterexample :
    (processAudioData engineFail 0 [] [0, 64, 255]).buffer = [(1:ℚ)/2] ∧
    ([(1:ℚ)/2] ≠ ([] : List ℚ)) := by
  constructor
  · norm_num [processAudioData, decodePCM16, decode_i16_le, ws_min_samples,
      WHISPER_SAMPLE_RATE, List.range_succ]
  · simp

/-- C7 (amended): binary frames are never skipped.  A frame of `n`
bytes always appends exactly `n / 2` decoded samples; a trailing odd
byte is simply ignored, so appending one byte to an even-length payload
changes nothing. -/
theorem ws_frame_decode_amended (engine : Engine) (now : Int) (buffer : List ℚ)
    (payload : List Nat) (b : Nat) :
    (decodePCM16 payload).length = payload.length / 2 ∧
    (payload.length % 2 = 0 →
      processAudioData engine now buffer (payload ++ [b]) =
        processAudioData engine now buffer payload) := by
  refine ⟨decodePCM16_length payload, fun heven => ?_⟩
  have hdec : decodePCM16 (payload ++ [b]) = decodePCM16 payload := by
    unfold decodePCM16
    have hlen : (payload ++ [b]).length / 2 = payload.length / 2 := by
      simp only [List.length_append, List.length_cons, List.length_nil]
      omega
    rw [hlen]
    apply List.map_congr_left
    intro i hi
    have hi' : i < payload.length / 2 := List.mem_range.mp hi
    have h1 : 2 * i < payload.length := by omega
    have h2 : 2 * i + 1 < payload.length := by omega
    have e1 : (payload ++ [b]).getD (2 * i) 0 = payload.getD (2 * i) 0 := by
      rw [List.getD_eq_getElem?_getD, List.getD_eq_getElem?_getD,
          List.getElem?_append, if_pos h1]
    have e2 : (payload ++ [b]).getD (2 * i + 1) 0 = payload.getD (2 * i + 1) 0 := by
      rw [List.getD_eq_getElem?_getD, List.getD_eq_getElem?_getD,
          List.getElem?_append, if_pos h2]
    rw [e1, e2]
  unfold processAudioData
  rw [hdec]

/-- Witness for the amended C7 statement at a concrete even-length
payload with a trailing odd byte. -/
theorem ws_frame_decode_amended_witness :
    (decodePCM16 [1, 2]).length = [1, 2].length / 2 ∧
    processAudioData engineFail 0 [] ([1, 2] ++ [9]) =
      processAudioData engineFail 0 [] [1, 2] := by
  have h := ws_frame_decode_amended engineFail 0 [] [1, 2] 9
  exact ⟨h.1, h.2 (by decide)⟩

/-! ## Whisper parameters and the per-request overlay
(`whisper_params`, server.cpp lines 167-216, and `get_req_parameters`,
lines 698-804) -/

/-- The server's mutable `whisper_params` block.  C++ `float` fields
are modelled over `ℚ`. -/
structure WhisperParams where
  n_threads : Int
  n_processors : Int
  offset_t_ms : Int
  offset_n : Int
  duration_ms : Int
  progress_step : Int
  max_context : Int
  max_len : Int
  best_of : Int
  beam_size : Int
  audio_ctx : Int
  word_thold : ℚ
  entropy_thold : ℚ
  logprob_thold : ℚ
  temperature : ℚ
  temperature_inc : ℚ
  no_speech_thold : ℚ
  debug_mode : Bool
  translate : Bool
  detect_language : Bool
  diarize : Bool
  tinydiarize : Bool
  split_on_word : Bool
  no_fallback : Bool
  print_special : Bool
  print_colors : Bool
  print_realtime : Bool
  print_progress : Bool
  no_timestamps : Bool
  use_gpu : Bool
  flash_attn : Bool
  suppress_nst : Bool
  language : String
  prompt : String
  font_path : String
  model : String
  response_format : String
  tdrz_speaker_turn : String
  openvino_encode_device : String
  dtw : String
deriving DecidableEq

/-- The in-struct initializers of `whisper_params` (server.cpp lines
167-216).  `n_threads` is `min(4, hardware_concurrency())` and so is a
parameter of the model. -/
def default_whisper_params (n_threads : Int) : WhisperParams where
  n_threads := n_threads
  n_processors := 1
  offset_t_ms := 0
  offset_n := 0
  duration_ms := 0
  progress_step := 5
  max_context := -1
  max_len := 0
  best_of := 2
  beam_size := -1
  audio_ctx := 0
  word_thold := 1 / 100
  entropy_thold := 24 / 10
  logprob_thold := -1
  temperature := 0
  temperature_inc := 2 / 10
  no_speech_thold := 6 / 10
  debug_mode := false
  translate := false
  detect_language := false
  diarize := true
  tinydiarize := false
  split_on_word := false
  no_fallback := false
  print_special := false
  print_colors := false
  print_realtime := false
  print_progress := false
  no_timestamps := false
  use_gpu := true
  flash_attn := false
  suppress_nst := false
  language := "en"
  prompt := ""
  font_path := "/System/Library/Fonts/Supplemental/Courier New Bold.ttf"
  model := "models/ggml-base.en.bin"
  response_format := "json"
  tdrz_speaker_turn := " [SPEAKER_TURN]"
  openvino_encode_device := "CPU"
  dtw := ""

/-- One multipart form field of a request (name and content). -/
structure ReqField where
  name : String
  content : String
deriving DecidableEq

/-- A multipart request: the list of its form fields. -/
structure Request where
  files : List ReqField
deriving DecidableEq

/-- Predicate `req.has_file(name)` of httplib. -/
def Request.has_file (r : Request) (n : String) : Bool :=
  r.files.any (fun f => f.name = n)

/-- Accessor `req.get_file_value(name).content` of httplib (first match). -/
def Request.get_file_value (r : Request) (n : String) : String :=
  match r.files.find? (fun f => f.name = n) with
  | some f => f.content
  | none => ""

/-- Function `parse_str_to_bool` (server.cpp lines 137-142). -/
def parse_str_to_bool (s : String) : Bool :=
  s = "true" ∨ s = "1" ∨ s = "yes" ∨ s = "y"

/-- Characters skipped by `std::stoi` / `std::stof` before the number
(the `"C"` locale whitespace set). -/
def isCppSpace (c : Char) : Bool :=
  c = ' ' ∨ c = '\t' ∨ c = '\n' ∨ c = '\x0b' ∨ c = '\x0c' ∨ c = '\r'

/-- Digit-string value in base 10. -/
def digitsToNat (l : List Char) : Nat :=
  l.foldl (fun a c => 10 * a + (c.toNat - '0'.toNat)) 0

/-- Function `std::stoi`: skip whitespace, optional sign, then a non-empty run
of digits (further characters are ignored); `none` models the
`std::invalid_argument` exception when no digits are found.  The
`std::out_of_range` overflow exception is not modelled. -/
def stoi? (s : String) : Option Int :=
  let l := s.data.dropWhile isCppSpace
  let sign : Int := match l with
    | '-' :: _ => -1
    | _ => 1
  let l1 := match l with
    | '-' :: r => r
    | '+' :: r => r
    | r => r
  let digs := l1.takeWhile Char.isDigit
  if digs.isEmpty then none
  else some (sign * digitsToNat digs)

/-- Function `std::stof`, restricted to plain decimal notation (no exponent,
hex, inf or nan — none of which the serving clients send): skip
whitespace, optional sign, digits with an optional fractional part;
`none` when neither side of the point has a digit. -/
def stof? (s : String) : Option ℚ :=
  let l := s.data.dropWhile isCppSpace
  let sign : ℚ := match l with
    | '-' :: _ => -1
    | _ => 1
  let l1 := match l with
    | '-' :: r => r
    | '+' :: r => r
    | r => r
  let intD := l1.takeWhile Char.isDigit
  let rest := l1.drop intD.length
  let fracD := match rest with
    | '.' :: r => r.takeWhile Char.isDigit
    | _ => []
  if intD.isEmpty ∧ fracD.isEmpty then none
  else some (sign * ((digitsToNat intD : ℚ) + (digitsToNat fracD : ℚ) / 10 ^ fracD.length))

/-- C++ float-to-int conversion truncates toward zero (used by the
`audio_ctx` field, which the source reads with `std::stof` and stores
into an `int32_t`). -/
def truncToInt (q : ℚ) : Int :=
  if 0 ≤ q then ⌊q⌋ else ⌈q⌉

/-- A field action: given the current parameter block and the field
content, return the updated block, or `none` when the numeric coercion
throws. -/
def FieldAct : Type := WhisperParams → String → Option WhisperParams

/-- Action of an `std::stoi` field. -/
def actI (set : WhisperParams → Int → WhisperParams) : FieldAct :=
  fun p s => (stoi? s).map (set p)

/-- Action of an `std::stof` field. -/
def actF (set : WhisperParams → ℚ → WhisperParams) : FieldAct :=
  fun p s => (stof? s).map (set p)

/-- Action of a `parse_str_to_bool` field (never throws). -/
def actB (set : WhisperParams → Bool → WhisperParams) : FieldAct :=
  fun p s => some (set p (parse_str_to_bool s))

/-- Action of a raw string field (never throws). -/
def actS (set : WhisperParams → String → WhisperParams) : FieldAct :=
  fun p s => some (set p s)

/-- The fields recognized by `get_req_parameters` (server.cpp lines
698-804), in the exact order the source checks them. -/
def inference_fields : List (String × FieldAct) :=
  [("offset_t", actI fun p v => { p with offset_t_ms := v }),
   ("offset_n", actI fun p v => { p with offset_n := v }),
   ("duration", actI fun p v => { p with duration_ms := v }),
   ("max_context", actI fun p v => { p with max_context := v }),
   ("max_len", actI fun p v => { p with max_len := v }),
   ("best_of", actI fun p v => { p with best_of := v }),
   ("beam_size", actI fun p v => { p with beam_size := v }),
   ("audio_ctx", actF fun p v => { p with audio_ctx := truncToInt v }),
   ("word_thold", actF fun p v => { p with word_thold := v }),
   ("entropy_thold", actF fun p v => { p with entropy_thold := v }),
   ("logprob_thold", actF fun p v => { p with logprob_thold := v }),
   ("debug_mode", actB fun p v => { p with debug_mode := v }),
   ("translate", actB fun p v => { p with translate := v }),
   ("diarize", actB fun p v => { p with diarize := v }),
   ("tinydiarize", actB fun p v => { p with tinydiarize := v }),
   ("split_on_word", actB fun p v => { p with split_on_word := v }),
   ("no_timestamps", actB fun p v => { p with no_timestamps := v }),
   ("language", actS fun p v => { p with language := v }),
   ("detect_language", actB fun p v => { p with detect_language := v }),
   ("prompt", actS fun p v => { p with prompt := v }),
   ("response_format", actS fun p v => { p with response_format := v }),
   ("temperature", actF fun p v => { p with temperature := v }),
   ("temperature_inc", actF fun p v => { p with temperature_inc := v }),
   ("suppress_non_speech", actB fun p v => { p with suppress_nst := v }),
   ("suppress_nst", actB fun p v => { p with suppress_nst := v })]

/-- Sequential application of the field actions.  The whole of
`get_req_parameters` sits inside one `try { ... } catch`, so the first
coercion that throws aborts the remaining fields while keeping every
mutation already performed. -/
def applyFields (req : Request) : List (String × FieldAct) → WhisperParams → WhisperParams
  | [], p => p
  | (n, a) :: rest, p =>
    if req.has_file n then
      match a p (req.get_file_value n) with
      | some p1 => applyFields req rest p1
      | none => p
    else applyFields req rest p

/-- An `Except`-valued variant of `applyFields` exposing whether the
catch block was reached; used to state the abort semantics. -/
def applyFieldsE (req : Request) : List (String × FieldAct) → WhisperParams →
    Except WhisperParams WhisperParams
  | [], p => Except.ok p
  | (n, a) :: rest, p =>
    if req.has_file n then
      match a p (req.get_file_value n) with
      | some p1 => applyFieldsE req rest p1
      | none => Except.error p
    else applyFieldsE req rest p

/-- Function `get_req_parameters` (server.cpp lines 698-804). -/
def get_req_parameters (req : Request) (p : WhisperParams) : WhisperParams :=
  applyFields req inference_fields p

/-! ## Theorems about the parameter overlay (C5, C9) -/

/-- A field action that never changes `diarize` or `tinydiarize`. -/
def PreservesDZ (a : FieldAct) : Prop :=
  ∀ p s p1, a p s = some p1 → p1.diarize = p.diarize ∧ p1.tinydiarize = p.tinydiarize

lemma actI_preservesDZ (set : WhisperParams → Int → WhisperParams)
    (h : ∀ p v, (set p v).diarize = p.diarize ∧ (set p v).tinydiarize = p.tinydiarize) :
    PreservesDZ (actI set) := by
  intro p s p1 hp
  unfold actI at hp
  cases hst : stoi? s with
  | none => rw [hst] at hp; exact Option.noConfusion hp
  | some v =>
    rw [hst] at hp
    simp only [Option.map_some'] at hp
    cases hp
    exact h p v

lemma actF_preservesDZ (set : WhisperParams → ℚ → WhisperParams)
    (h : ∀ p v, (set p v).diarize = p.diarize ∧ (set p v).tinydiarize = p.tinydiarize) :
    PreservesDZ (actF set) := by
  intro p s p1 hp
  unfold actF at hp
  cases hst : stof? s with
  | none => rw [hst] at hp; exact Option.noConfusion hp
  | some v =>
    rw [hst] at hp
    simp only [Option.map_some'] at hp
    cases hp
    exact h p v

lemma actB_preservesDZ (set : WhisperParams → Bool → WhisperParams)
    (h : ∀ p v, (set p v).diarize = p.diarize ∧ (set p v).tinydiarize = p.tinydiarize) :
    PreservesDZ (actB set) := by
  intro p s p1 hp
  unfold actB at hp
  cases hp
  exact h p _

lemma actS_preservesDZ (set : WhisperParams → String → WhisperParams)
    (h : ∀ p v, (set p v).diarize = p.diarize ∧ (set p v).tinydiarize = p.tinydiarize) :
    PreservesDZ (actS set) := by
  intro p s p1 hp
  unfold actS at hp
  cases hp
  exact h p _

lemma fields_preserveDZ :
    ∀ na ∈ inference_fields, na.1 ≠ "diarize" → na.1 ≠ "tinydiarize" →
      PreservesDZ na.2 := by
  intro na hmem
  fin_cases hmem <;>
    intro h1 h2 <;>
    first
      | exact absurd rfl h1
      | exact absurd rfl h2
      | exact actI_preservesDZ _ (fun p v => ⟨rfl, rfl⟩)
      | exact actF_preservesDZ _ (fun p v => ⟨rfl, rfl⟩)
      | exact actB_preservesDZ _ (fun p v => ⟨rfl, rfl⟩)
      | exact actS_preservesDZ _ (fun p v => ⟨rfl, rfl⟩)

lemma applyFields_preserveDZ (req : Request)
    (hd : req.has_file "diarize" = false) (ht : req.has_file "tinydiarize" = false) :
    ∀ (l : List (String × FieldAct)),
      (∀ na ∈ l, na.1 ≠ "diarize" → na.1 ≠ "tinydiarize" → PreservesDZ na.2) →
      ∀ p, (applyFields req l p).diarize = p.diarize ∧
        (applyFields req l p).tinydiarize = p.tinydiarize := by
  intro l
  induction l with
  | nil => intro _ p; exact ⟨rfl, rfl⟩
  | cons na rest ih =>
    intro hall p
    obtain ⟨n, a⟩ := na
    have hallr : ∀ x ∈ rest, x.1 ≠ "diarize" → x.1 ≠ "tinydiarize" → PreservesDZ x.2 :=
      fun x hx => hall x (List.mem_cons_of_mem _ hx)
    unfold applyFields
    by_cases hf : req.has_file n = true
    · have hn1 : n ≠ "diarize" := by
        intro he
        rw [he, hd] at hf
        exact Bool.noConfusion hf
      have hn2 : n ≠ "tinydiarize" := by
        intro he
        rw [he, ht] at hf
        exact Bool.noConfusion hf
      have hpres : PreservesDZ a := hall (n, a) (List.mem_cons_self _ _) hn1 hn2
      rw [if_pos hf]
      cases hact : a p (req.get_file_value n) with
      | none => exact ⟨rfl, rfl⟩
      | some p1 =>
        have hps := hpres p (req.get_file_value n) p1 hact
        have hih := ih hallr p1
        exact ⟨hih.1.trans hps.1, hih.2.trans hps.2⟩
    · rw [if_neg hf]
      exact ih hallr p

/-- C5 (amended): the diarize/tinydiarize mutual exclusion is enforced
only at startup on the CLI flags; per-request multipart fields are not
re-checked.  What does hold per request: if the parameter block
satisfies the exclusion and the request supplies neither a `diarize`
nor a `tinydiarize` field, the effective parameters still satisfy it —
both-true can only arise from a request that sets one of these two
fields. -/
theorem diarize_exclusion_amended (req : Request) (p : WhisperParams)
    (hp : ¬(p.diarize = true ∧ p.tinydiarize = true))
    (hd : req.has_file "diarize" = false)
    (ht : req.has_file "tinydiarize" = false) :
    ¬((get_req_parameters req p).diarize = true ∧
      (get_req_parameters req p).tinydiarize = true) := by
  have h := applyFields_preserveDZ req hd ht inference_fields fields_preserveDZ p
  intro hc
  exact hp ⟨h.1 ▸ hc.1, h.2 ▸ hc.2⟩

/-- A request that overrides only `temperature`. -/
def reqTemperature : Request := ⟨[⟨"temperature", "0.7"⟩]⟩

/-- Witness for the amended C5 statement: a request touching neither
field keeps the exclusion intact from the startup defaults. -/
theorem diarize_exclusion_amended_witness :
    ¬((get_req_parameters reqTemperature (default_whisper_params 4)).diarize = true ∧
      (get_req_parameters reqTemperature (default_whisper_params 4)).tinydiarize = true) :=
  diarize_exclusion_amended reqTemperature (default_whisper_params 4)
    (by simp [default_whisper_params]) rfl rfl

/-- A request that supplies `tinydiarize=true` (and a `file` field) but
no `diarize` field. -/
def reqTinydiarize : Request := ⟨[⟨"file", "x"⟩, ⟨"tinydiarize", "true"⟩]⟩

/-- C5 (counterexample): the startup defaults have `diarize = true`
(passing the CLI-time check, since `tinydiarize` defaults to `false`),
yet one request supplying only `tinydiarize=true` yields an effective
parameter block with `diarize` and `tinydiarize` simultaneously true —
nothing re-checks the exclusion per request. -/
theorem diarize_exclusion_counterexample :
    (default_whisper_params 4).diarize = true ∧
    (default_whisper_params 4).tinydiarize = false ∧
    (get_req_parameters reqTinydiarize (default_whisper_params 4)).diarize = true ∧
    (get_req_parameters reqTinydiarize (default_whisper_params 4)).tinydiarize = true :=
  ⟨rfl, rfl, rfl, rfl⟩

/-- One step of `applyFields` (definitional). -/
lemma applyFields_cons (req : Request) (n : String) (a : FieldAct)
    (rest : List (String × FieldAct)) (p : WhisperParams) :
    applyFields req ((n, a) :: rest) p =
      if req.has_file n then
        match a p (req.get_file_value n) with
        | some p1 => applyFields req rest p1
        | none => p
      else applyFields req rest p := rfl

/-- One step of `applyFieldsE` (definitional). -/
lemma applyFieldsE_cons (req : Request) (n : String) (a : FieldAct)
    (rest : List (String × FieldAct)) (p : WhisperParams) :
    applyFieldsE req ((n, a) :: rest) p =
      if req.has_file n then
        match a p (req.get_file_value n) with
        | some p1 => applyFieldsE req rest p1
        | none => Except.error p
      else applyFieldsE req rest p := rfl

/-- Run of `applyFields` over an action-list split: the `Except`-valued
prefix run determines whether the suffix is processed at all. -/
lemma applyFields_append (req : Request) (l1 l2 : List (String × FieldAct))
    (p : WhisperParams) :
    applyFields req (l1 ++ l2) p =
      match applyFieldsE req l1 p with
      | Except.ok q => applyFields req l2 q
      | Except.error q => q := by
  induction l1 generalizing p with
  | nil => rfl
  | cons na rest ih =>
    obtain ⟨n, a⟩ := na
    rw [List.cons_append, applyFields_cons, applyFieldsE_cons]
    by_cases hf : req.has_file n = true
    · rw [if_pos hf, if_pos hf]
      cases a p (req.get_file_value n) with
      | none => rfl
      | some p1 => exact ih p1
    · rw [if_neg hf, if_neg hf]
      exact ih p

/-- C9 (amended): a parameter field whose content fails numeric
coercion is caught and the request still proceeds with the failing
parameter keeping its prior value; however the single `try`/`catch`
wrapping all of `get_req_parameters` aborts the remaining fields, so
only the supplied fields processed before the failing one are applied
— every field after it in the fixed processing order keeps its prior
value too. -/
theorem coercion_abort_amended (req : Request) (p p1 : WhisperParams)
    (l1 l2 : List (String × FieldAct)) (n : String) (a : FieldAct)
    (hsplit : inference_fields = l1 ++ (n, a) :: l2)
    (hok : applyFieldsE req l1 p = Except.ok p1)
    (hf : req.has_file n = true)
    (hfail : a p1 (req.get_file_value n) = none) :
    get_req_parameters req p = p1 := by
  unfold get_req_parameters
  rw [hsplit, applyFields_append, hok]
  show applyFields req ((n, a) :: l2) p1 = p1
  rw [applyFields_cons, if_pos hf, hfail]

/-- A request whose first processed field (`offset_t`) fails `stoi`
while a later field (`language`) is well-formed. -/
def reqBadNumber : Request := ⟨[⟨"offset_t", "abc"⟩, ⟨"language", "fr"⟩]⟩

/-- Witness for the amended C9 statement: with `offset_t=abc` first in
processing order, the whole overlay returns the parameters from before
the failing field — here the untouched defaults. -/
theorem coercion_abort_amended_witness :
    get_req_parameters reqBadNumber (default_whisper_params 4) =
      default_whisper_params 4 :=
  coercion_abort_amended reqBadNumber (default_whisper_params 4)
    (default_whisper_params 4) [] inference_fields.tail "offset_t"
    (actI fun p v => { p with offset_t_ms := v }) rfl rfl rfl rfl

/-- C9 (counterexample): in a request supplying `offset_t=abc` (a
failing numeric coercion) together with `language=fr`, the `language`
field — although supplied and well-formed — is not applied: processing
stops at the failing field, refuting \x22every other supplied parameter
field in the request is still applied\x22. -/
theorem coercion_scope_counterexample :
    reqBadNumber.has_file "language" = true ∧
    reqBadNumber.get_file_value "language" = "fr" ∧
    (get_req_parameters reqBadNumber (default_whisper_params 4)).language = "en" :=
  ⟨rfl, rfl, rfl⟩

/-! ## The `/inference` handler
(server.cpp lines 1369-1686), modelled for the default
`ffmpeg_converter = false` configuration, in which the uploaded bytes
are decoded in memory by `read_wav_content`. -/

/-- A C++ byte string viewed as its byte values. -/
def strBytes (s : String) : List Nat := s.data.map Char.toNat

/-- The language/translate coercion performed before inference
(server.cpp lines 1456-1465): a non-multilingual model forces
`language = "en"` and `translate = false`; `detect_language` then
forces `language = "auto"`. -/
def coerce_language (multilingual : Bool) (p : WhisperParams) : WhisperParams :=
  let p1 :=
    if multilingual = false ∧ (p.language ≠ "en" ∨ p.translate = true) then
      { p with language := "en", translate := false }
    else p
  if p1.detect_language = true then { p1 with language := "auto" } else p1

/-- Response of the `/inference` handler: an error JSON body, or a
body formatted according to the effective `response_format`. -/
inductive InfResponse where
  | error (msg : String)
  | ok (fmt : String) (segs : List SegmentData)
deriving DecidableEq

/-- Result of one `/inference` request: the server parameter block
afterwards (`params` is mutated in place and reset only on success),
the response, and the engine handles invoked. -/
structure InfStep where
  params : WhisperParams
  resp : InfResponse
  calls : List Handle
deriving DecidableEq

/-- The `svr.Post(inference_path)` handler (server.cpp lines
1369-1686): require the `file` field, overlay the request parameters
onto the block, decode the upload (stereo iff `diarize`), coerce the
language, run the cold engine, and reset the block to the startup
defaults only after a fully successful request. -/
def inference_handler (dflt : WhisperParams) (multilingual : Bool)
    (engine : Engine) (p : WhisperParams) (req : Request) : InfStep :=
  if req.has_file "file" = false then
    { params := p, resp := InfResponse.error "no \x27file\x27 field in the request",
      calls := [] }
  else
    match read_wav_content (strBytes (req.get_file_value "file"))
        (get_req_parameters req p).diarize with
    | none =>
      { params := get_req_parameters req p,
        resp := InfResponse.error "failed to read WAV file", calls := [] }
    | some pcm =>
      match engine Handle.cold pcm.1 with
      | none =>
        { params := coerce_language multilingual (get_req_parameters req p),
          resp := InfResponse.error "failed to process audio",
          calls := [Handle.cold] }
      | some segs =>
        { params := dflt,
          resp := InfResponse.ok
            (coerce_language multilingual (get_req_parameters req p)).response_format
            segs,
          calls := [Handle.cold] }

/-- C6: after every successful `/inference` request the server's
parameter block equals the startup defaults captured before serving
began — no per-request override survives a successful call. -/
theorem inference_reset_on_success (dflt : WhisperParams) (multilingual : Bool)
    (engine : Engine) (p : WhisperParams) (req : Request)
    (fmt : String) (segs : List SegmentData)
    (h : (inference_handler dflt multilingual engine p req).resp =
      InfResponse.ok fmt segs) :
    (inference_handler dflt multilingual engine p req).params = dflt := by
  revert h
  unfold inference_handler
  by_cases hf : req.has_file "file" = false
  · rw [if_pos hf]
    intro h
    simp at h
  · rw [if_neg hf]
    split
    · intro h
      simp at h
    · split
      · intro h
        simp at h
      · intro _
        rfl

/-- A 44-character upload: a canonical header with no samples. -/
def reqFile44 : Request := ⟨[⟨"file", String.mk (List.replicate 44 'a')⟩]⟩

/-- An engine that always succeeds with no segments. -/
def engineEmpty : Engine := fun _ _ => some []

/-- Witness for C6: a concrete successful request resets the block. -/
theorem inference_reset_on_success_witness :
    (inference_handler (default_whisper_params 4) true engineEmpty
        (default_whisper_params 4) reqFile44).params = default_whisper_params 4 :=
  inference_reset_on_success (default_whisper_params 4) true engineEmpty
    (default_whisper_params 4) reqFile44 "json" [] rfl

/-- C10: when a `/inference` request fails after the per-request
overlay was applied, the parameter block is not reset: a WAV-decode
failure leaves exactly the overlaid block in place, and an engine
failure leaves the overlaid block (after the language coercion that
precedes inference); either way the next request starts from these
retained overrides, not from the startup defaults. -/
theorem inference_no_reset_on_failure (dflt : WhisperParams) (multilingual : Bool)
    (engine : Engine) (p : WhisperParams) (req : Request) :
    ((inference_handler dflt multilingual engine p req).resp =
        InfResponse.error "failed to read WAV file" →
      (inference_handler dflt multilingual engine p req).params =
        get_req_parameters req p) ∧
    ((inference_handler dflt multilingual engine p req).resp =
        InfResponse.error "failed to process audio" →
      (inference_handler dflt multilingual engine p req).params =
        coerce_language multilingual (get_req_parameters req p)) := by
  unfold inference_handler
  by_cases hf : req.has_file "file" = false
  · rw [if_pos hf]
    constructor
    · intro h
      simp at h
    · intro h
      simp at h
  · rw [if_neg hf]
    split
    · constructor
      · intro _
        rfl
      · intro h
        simp at h
    · split
      · constructor
        · intro h
          simp at h
        · intro _
          rfl
      · constructor
        · intro h
          simp at h
        · intro h
          simp at h

/-- A request whose upload is shorter than 44 bytes and which also
overrides `offset_t`. -/
def reqShortFile : Request := ⟨[⟨"file", "abc"⟩, ⟨"offset_t", "5"⟩]⟩

/-- Witness for C10: a decode failure retains the request's
`offset_t = 5` override in the server block (the startup default being
0), so the subsequent request inherits it. -/
theorem inference_no_reset_on_failure_witness :
    (inference_handler (default_whisper_params 4) true engineEmpty
        (default_whisper_params 4) reqShortFile).params =
      get_req_parameters reqShortFile (default_whisper_params 4) ∧
    (get_req_parameters reqShortFile (default_whisper_params 4)).offset_t_ms = 5 ∧
    (default_whisper_params 4).offset_t_ms = 0 := by
  refine ⟨(inference_no_reset_on_failure (default_whisper_params 4) true engineEmpty
    (default_whisper_params 4) reqShortFile).1 rfl, ?_, rfl⟩
  decide

/-! ## The `/stream`, HTTP `/hot_stream` and `/load` handlers, and the
dispatch table (C1) -/

/-- Struct `hot_path_params` (server.cpp lines 218-239). -/
structure HotPathParams where
  step_ms : Int
  length_ms : Int
  keep_ms : Int
  capture_id : Int
  max_tokens : Int
  audio_ctx : Int
  vad_thold : ℚ
  freq_thold : ℚ
  tiny : Bool
  translate : Bool
  no_fallback : Bool
  print_special : Bool
  no_timestamps : Bool
  use_gpu : Bool
  streaming : Bool
  model : String
  language : String
deriving DecidableEq

/-- The in-struct initializers of `hot_path_params`. -/
def default_hot_path_params : HotPathParams where
  step_ms := 256
  length_ms := 2000
  keep_ms := 0
  capture_id := -1
  max_tokens := 32
  audio_ctx := 0
  vad_thold := 6 / 10
  freq_thold := 100
  tiny := true
  translate := false
  no_fallback := true
  print_special := false
  no_timestamps := true
  use_gpu := true
  streaming := true
  model := "models/ggml-tiny.en-q5_1.bin"
  language := "en"

/-- Response of the two chunked streaming endpoints: an error body, or
`segments` (text, t0, t1 triples) plus `buffer_size_ms`. -/
inductive StreamResp where
  | error (msg : String)
  | ok (segments : List (String × Int × Int)) (buffer_size_ms : Nat)
deriving DecidableEq

/-- Result of one chunked streaming POST: the thread-local ring
afterwards, the response, and the engine handles invoked. -/
structure StreamStep where
  buffer : List ℚ
  resp : StreamResp
  calls : List Handle
deriving DecidableEq

/-- Constant `min_samples` of the `/stream` handler (server.cpp line 1696):
1.1 seconds, the same formula as the WebSocket path. -/
def stream_min_samples : Nat := WHISPER_SAMPLE_RATE + WHISPER_SAMPLE_RATE / 10

/-- Constant `overlap_samples` of the `/stream` handler (line 1743): 200 ms. -/
def stream_overlap_samples : Nat := 200 * 16000 / 1000

/-- The `svr.Post("/stream")` handler (server.cpp lines 1689-1753).
It locks `whisper_mutex` (the cold mutex) and calls
`whisper_full(ctx, ...)` — the cold context.  `audio = none` models a
request without an `audio` multipart field; the float samples of the
field are taken as given (the source reinterprets the raw bytes). -/
def stream_handler (engine : Engine) (buffer : List ℚ)
    (audio : Option (List ℚ)) : StreamStep :=
  match audio with
  | none => { buffer := buffer, resp := StreamResp.error "no audio data", calls := [] }
  | some samples =>
    let buf1 := buffer ++ samples
    if buf1.length < stream_min_samples then
      { buffer := buf1, resp := StreamResp.ok [] (buf1.length * 1000 / 16000),
        calls := [] }
    else
      match engine Handle.cold buf1 with
      | none =>
        { buffer := buf1, resp := StreamResp.error "failed to process audio",
          calls := [Handle.cold] }
      | some segs =>
        let buf2 :=
          if stream_overlap_samples < buf1.length then
            buf1.drop (buf1.length - stream_overlap_samples)
          else []
        { buffer := buf2,
          resp := StreamResp.ok (segs.map fun s => (s.text, s.t0, s.t1))
            (buf2.length * 1000 / 16000),
          calls := [Handle.cold] }

/-- The second-registered `svr.Post("/hot_stream")` handler
(server.cpp lines 1755-1826).  Despite its name it locks
`whisper_mutex` and calls `whisper_full(ctx, ...)` — the cold mutex
and the cold context.  Trigger threshold and retained overlap come
from `hot_path_params` (`length_ms`, `keep_ms`). -/
def hot_stream_chunk_handler (hp : HotPathParams) (engine : Engine)
    (buffer : List ℚ) (audio : Option (List ℚ)) : StreamStep :=
  match audio with
  | none => { buffer := buffer, resp := StreamResp.error "no audio data", calls := [] }
  | some samples =>
    let buf1 := buffer ++ samples
    if (buf1.length : Int) < hp.length_ms * 16000 / 1000 then
      { buffer := buf1, resp := StreamResp.ok [] (buf1.length * 1000 / 16000),
        calls := [] }
    else
      match engine Handle.cold buf1 with
      | none =>
        { buffer := buf1, resp := StreamResp.error "failed to process audio",
          calls := [Handle.cold] }
      | some segs =>
        let buf2 :=
          if hp.keep_ms * 16000 / 1000 < (buf1.length : Int) then
            buf1.drop (buf1.length - (hp.keep_ms * 16000 / 1000).toNat)
          else []
        { buffer := buf2,
          resp := StreamResp.ok (segs.map fun s => (s.text, s.t0, s.t1))
            (buf2.length * 1000 / 16000),
          calls := [Handle.cold] }

/-- Response of the first-registered `svr.Post("/hot_stream")` handler
(the hot batch variant): an error body or `{text, is_streaming:true,
model:"tiny.en", segments}`. -/
inductive HotResp where
  | error (msg : String)
  | ok (text : String) (n_segments : Nat)
deriving DecidableEq

/-- The first-registered `svr.Post("/hot_stream")` handler (server.cpp
lines 1267-1367): locks `hot_whisper_mutex`, decodes the `file` WAV
upload in memory (mono), and runs `whisper_full_parallel(hot_ctx, ...)`
— the hot context. -/
def hot_stream_file_handler (engine : Engine) (req : Request) :
    HotResp × List Handle :=
  if req.has_file "file" = false then
    (HotResp.error "no \x27file\x27 field in the request", [])
  else
    match read_wav_content (strBytes (req.get_file_value "file")) false with
    | none => (HotResp.error "failed to read WAV file", [])
    | some pcm =>
      match engine Handle.hot pcm.1 with
      | none => (HotResp.error "hot path inference failed", [Handle.hot])
      | some segs =>
        (HotResp.ok (String.join (segs.map SegmentData.text)) segs.length,
         [Handle.hot])

/-- Response of the `/load` handler. -/
inductive LoadResp where
  | error (msg : String)
  | okMsg
  | fatalExit
deriving DecidableEq

/-- The `svr.Post("/load")` handler (server.cpp lines 1828-1868):
locks `whisper_mutex` and frees / reinitializes the cold context `ctx`
(the returned handle list records which handle the request operated
on); a failed reinitialization exits the process. -/
def load_handler (modelExists : Bool) (initOk : Bool) (req : Request) :
    LoadResp × List Handle :=
  if req.has_file "model" = false then
    (LoadResp.error "no \x27model\x27 field in the request", [])
  else if modelExists = false then
    (LoadResp.error "model not found!", [])
  else if initOk then (LoadResp.okMsg, [Handle.cold])
  else (LoadResp.fatalExit, [Handle.cold])

/-- The handler argument positions of the two `std::lock_guard`
declarations: which engine mutex each endpoint handler acquires for
its whole body (server.cpp lines 1269, 1371, 1691, 1757, 1829; the
WebSocket frame path acquires no engine mutex — it only takes the
session-registry mutex while looking up the connection). -/
def handler_mutex : String → Option MutexId
  | "inference" => some MutexId.coldMutex
  | "load" => some MutexId.coldMutex
  | "hot_stream_http_first" => some MutexId.hotMutex
  | "stream" => some MutexId.coldMutex
  | "hot_stream_http_second" => some MutexId.coldMutex
  | "hot_stream_ws" => none
  | _ => none

/-- C1 (amended): `/inference` and `/load` operate on the cold handle
under the cold mutex, and the first-registered HTTP `/hot_stream`
handler runs its inference on the hot handle under the hot mutex; the
WebSocket `/hot_stream` path runs its inference on the hot handle but
without acquiring any engine mutex; and `/stream` — like the
second-registered (shadowed) HTTP `/hot_stream` handler — runs every
inference on the cold handle under the cold mutex, never the hot one. -/
theorem dispatch_domains_amended :
    (handler_mutex "inference" = some MutexId.coldMutex ∧
     handler_mutex "load" = some MutexId.coldMutex ∧
     handler_mutex "hot_stream_http_first" = some MutexId.hotMutex ∧
     handler_mutex "stream" = some MutexId.coldMutex ∧
     handler_mutex "hot_stream_http_second" = some MutexId.coldMutex ∧
     handler_mutex "hot_stream_ws" = none) ∧
    (∀ dflt multilingual engine p req,
      (inference_handler dflt multilingual engine p req).calls.all
        (fun h => h = Handle.cold) = true) ∧
    (∀ modelExists initOk req,
      (load_handler modelExists initOk req).2.all
        (fun h => h = Handle.cold) = true) ∧
    (∀ engine req,
      (hot_stream_file_handler engine req).2.all
        (fun h => h = Handle.hot) = true) ∧
    (∀ engine now buffer,
      (processAudioChunk engine now buffer).calls.all
        (fun h => h = Handle.hot) = true) ∧
    (∀ engine buffer audio,
      (stream_handler engine buffer audio).calls.all
        (fun h => h = Handle.cold) = true) ∧
    (∀ hp engine buffer audio,
      (hot_stream_chunk_handler hp engine buffer audio).calls.all
        (fun h => h = Handle.cold) = true) := by
  refine ⟨⟨rfl, rfl, rfl, rfl, rfl, rfl⟩, ?_, ?_, ?_, ?_, ?_, ?_⟩
  · intro dflt multilingual engine p req
    unfold inference_handler
    split
    · rfl
    · split
      · rfl
      · split <;> rfl
  · intro modelExists initOk req
    unfold load_handler
    split
    · rfl
    · split
      · rfl
      · split <;> rfl
  · intro engine req
    unfold hot_stream_file_handler
    split
    · rfl
    · split
      · rfl
      · split <;> rfl
  · intro engine now buffer
    unfold processAudioChunk
    split <;> rfl
  · intro engine buffer audio
    unfold stream_handler
    split
    · rfl
    · dsimp only
      split
      · rfl
      · split <;> rfl
  · intro hp engine buffer audio
    unfold hot_stream_chunk_handler
    split
    · rfl
    · dsimp only
      split
      · rfl
      · split <;> rfl

/-- C1 (counterexample): on a concrete `/stream` request carrying
1.1 s of audio, the handler's single inference call goes to the cold
handle — refuting \x22every inference performed by the /stream handler
is executed against the hot model handle, never the cold one\x22. -/
theorem stream_cold_counterexample :
    (stream_handler engineEmpty [] (some (List.replicate 17600 (0:ℚ)))).calls =
      [Handle.cold] ∧
    Handle.cold ≠ Handle.hot := by
  constructor
  · unfold stream_handler
    dsimp only
    rw [List.nil_append]
    have hc : ¬((List.replicate 17600 (0:ℚ)).length < stream_min_samples) := by
      rw [List.length_replicate]
      norm_num [stream_min_samples, WHISPER_SAMPLE_RATE]
    rw [if_neg hc]
    rfl
  · decide

/-! ## The verbose_json segment formatter (C8)
(server.cpp lines 1628-1669) -/

/-- One element of a segment's `words` array in the verbose_json
response. -/
structure VJsonWord where
  word : String
  wstart : Option ℚ
  wend : Option ℚ
  t_dtw : Option Int
  probability : ℚ
deriving DecidableEq

/-- One element of the `segments` array in the verbose_json
response. -/
structure VJsonSegment where
  sid : Nat
  text : String
  start_s : Option ℚ
  end_s : Option ℚ
  tokens : List Int
  words : List VJsonWord
  temperature : ℚ
  avg_logprob : ℚ
  no_speech_prob : ℚ
deriving DecidableEq

/-- The body of the per-token loop (server.cpp lines 1643-1659): skip
tokens at or past the end-of-text sentinel, otherwise push the id and
the word object and accumulate `total_logprob += token.plog`. -/
def vjson_token_step (eot : Int) (no_timestamps : Bool) :
    (ℚ × List Int × List VJsonWord) → TokenData → (ℚ × List Int × List VJsonWord) :=
  fun acc tok =>
    if eot ≤ tok.id then acc
    else
      (acc.1 + tok.plog,
       acc.2.1 ++ [tok.id],
       acc.2.2 ++ [{ word := tok.text,
                     wstart := if no_timestamps then none else some ((tok.t0 : ℚ) / 100),
                     wend := if no_timestamps then none else some ((tok.t1 : ℚ) / 100),
                     t_dtw := if no_timestamps then none else some tok.t_dtw,
                     probability := tok.p }])

/-- One segment of the verbose_json response (server.cpp lines
1628-1668): `avg_logprob` is `total_logprob / n_tokens`, where
`n_tokens` is `whisper_full_n_tokens` — the total token count of the
segment, not the number of listed tokens. -/
def vjson_segment (eot : Int) (no_timestamps : Bool) (temperature : ℚ)
    (i : Nat) (seg : SegmentData) : VJsonSegment :=
  let acc := seg.tokens.foldl (vjson_token_step eot no_timestamps) (0, [], [])
  { sid := i
    text := seg.text
    start_s := if no_timestamps then none else some ((seg.t0 : ℚ) / 100)
    end_s := if no_timestamps then none else some ((seg.t1 : ℚ) / 100)
    tokens := acc.2.1
    words := acc.2.2
    temperature := temperature
    avg_logprob := acc.1 / (seg.tokens.length : ℚ)
    no_speech_prob := seg.no_speech_prob }

/-- Modelled from the claim's words: the arithmetic mean of `plog`
over the segment's listed tokens (those with id below the end-of-text
sentinel). -/
def spec_avg_logprob_listed (eot : Int) (toks : List TokenData) : ℚ :=
  ((toks.filter (fun t => t.id < eot)).map TokenData.plog).sum /
    (((toks.filter (fun t => t.id < eot)).length : ℚ))

/-- What the code actually computes: the sum of `plog` over the listed
tokens divided by the total token count of the segment. -/
def spec_avg_logprob_total (eot : Int) (toks : List TokenData) : ℚ :=
  ((toks.filter (fun t => t.id < eot)).map TokenData.plog).sum / ((toks.length : ℚ))

lemma vjson_foldl_acc (eot : Int) (nt : Bool) :
    ∀ (l : List TokenData) (acc : ℚ × List Int × List VJsonWord),
      (l.foldl (vjson_token_step eot nt) acc).1 =
        acc.1 + ((l.filter (fun t => t.id < eot)).map TokenData.plog).sum ∧
      (l.foldl (vjson_token_step eot nt) acc).2.1 =
        acc.2.1 ++ (l.filter (fun t => t.id < eot)).map TokenData.id := by
  intro l
  induction l with
  | nil => intro acc; simp
  | cons t rest ih =>
    intro acc
    rw [List.foldl_cons, List.filter_cons]
    by_cases h : eot ≤ t.id
    · have hnot : ¬(t.id < eot) := not_lt.mpr h
      rw [if_neg (by simpa using hnot)]
      have hstep : vjson_token_step eot nt acc t = acc := by
        unfold vjson_token_step
        rw [if_pos h]
      rw [hstep]
      exact ih acc
    · have hlt : t.id < eot := not_le.mp h
      rw [if_pos (by simpa using hlt)]
      have hstep : vjson_token_step eot nt acc t =
          (acc.1 + t.plog, acc.2.1 ++ [t.id], acc.2.2 ++
            [{ word := t.text,
               wstart := if nt then none else some ((t.t0 : ℚ) / 100),
               wend := if nt then none else some ((t.t1 : ℚ) / 100),
               t_dtw := if nt then none else some t.t_dtw,
               probability := t.p }]) := by
        unfold vjson_token_step
        rw [if_neg h]
      rw [hstep]
      obtain ⟨ih1, ih2⟩ := ih (acc.1 + t.plog, acc.2.1 ++ [t.id], acc.2.2 ++ _)
      constructor
      · rw [ih1, List.map_cons, List.sum_cons]
        ring
      · rw [ih2]
        simp

/-- C8 (amended): in every verbose_json segment, the token list
excludes tokens at or past the end-of-text sentinel, and `avg_logprob`
equals the sum of `plog` over those listed tokens divided by the
segment's total token count (listed and excluded alike) — not the mean
over the listed tokens alone. -/
theorem vjson_avg_logprob_amended (eot : Int) (nt : Bool) (temp : ℚ)
    (i : Nat) (seg : SegmentData) :
    (vjson_segment eot nt temp i seg).avg_logprob =
      spec_avg_logprob_total eot seg.tokens ∧
    (vjson_segment eot nt temp i seg).tokens =
      (seg.tokens.filter (fun t => t.id < eot)).map TokenData.id := by
  obtain ⟨h1, h2⟩ := vjson_foldl_acc eot nt seg.tokens (0, [], [])
  constructor
  · show (seg.tokens.foldl (vjson_token_step eot nt) (0, [], [])).1 /
        (seg.tokens.length : ℚ) = _
    rw [h1]
    unfold spec_avg_logprob_total
    norm_num
  · show (seg.tokens.foldl (vjson_token_step eot nt) (0, [], [])).2.1 = _
    rw [h2]
    simp

/-- C8 (counterexample): a segment with one ordinary token
(`plog = -1`) and one end-of-text token (`plog = -3`, excluded from
the list) gets `avg_logprob = -1/2` — the filtered sum divided by the
total count 2 — while the mean over the listed tokens is `-1`. -/
theorem vjson_avg_logprob_counterexample :
    (vjson_segment 50 true 0 0
        { text := "a", t0 := 0, t1 := 0,
          tokens := [{ id := 0, text := "a", p := 1, plog := -1,
                       t0 := 0, t1 := 0, t_dtw := 0 },
                     { id := 50, text := "", p := 1, plog := -3,
                       t0 := 0, t1 := 0, t_dtw := 0 }],
          no_speech_prob := 0 }).avg_logprob ≠
      spec_avg_logprob_listed 50
        [{ id := 0, text := "a", p := 1, plog := -1,
           t0 := 0, t1 := 0, t_dtw := 0 },
         { id := 50, text := "", p := 1, plog := -3,
           t0 := 0, t1 := 0, t_dtw := 0 }] := by
  norm_num [vjson_segment, vjson_token_step, spec_avg_logprob_listed,
    List.filter_cons, List.foldl_cons]

end WhisperServer
